import Mathlib

/-!
Verification of the squad-elimination rules engine (Script.mts and the
RoundState variant). The data model and operations below are translated
from the TypeScript source: classes become structures, methods become
functions returning the updated structure, `Map<number, _>` collections
become association lists looked up by id with `List.find?` (insertion
order preserved, ids unique in the source maps), and the cooperative
`while` loops of `OnGameModeStarted` become fuel-bounded structural
recursions whose fuel strictly exceeds the loop's maximal iteration
count, so the fuel never binds.
-/

namespace SquadElim

/-! ### Constants (Script.mts lines 19-25, part_000 lines 19-24) -/

def MINIMUM_PLAYERS_TO_START : Nat := 1
def NUMBER_OF_TEAMS : Nat := 6
def INITIAL_TEAM_REVIVES : Int := 4
def ROUNDS_TO_WIN : Int := 2
def MAX_NUMBER_OF_ROUNDS : Nat := 7
def ROUND_TIMER_SECS : Nat := 60 * 10
def SUDDEN_DEATH_TIMER_SECS : Nat := 60 * 2

/-- part_000's `MAX_ROUNDS` constant, used by `RoundState.startNewRound`'s
validation, where the round number is compared as a (possibly negative)
JS number. -/
def MAX_ROUNDS : Int := 7

/-- `TeamIdMapping` (Script.mts lines 27-34): the fixed id-to-name table;
`teams.get` style lookup returning `none` off-table. -/
def TeamIdMapping : Int → Option String
  | 0 => some "Alfa"
  | 1 => some "Bravo"
  | 2 => some "Charlie"
  | 3 => some "Delta"
  | 4 => some "Echo"
  | 5 => some "Foxtrot"
  | _ => none

/-! ### class Team (Script.mts lines 41-106) -/

structure Team where
  teamId : Int
  teamName : String
  teamScore : Int
  teamRevivesLeft : Int
  teamPlayersAlive : Int
  teamEliminated : Bool
deriving DecidableEq, Repr

/-- The `Team` constructor (Script.mts lines 49-56). -/
def Team.new (teamId : Int) : Team :=
  { teamId := teamId
    teamName := (TeamIdMapping teamId).getD "Unknown"
    teamScore := 0
    teamRevivesLeft := INITIAL_TEAM_REVIVES
    teamPlayersAlive := 4
    teamEliminated := false }

def Team.gameReset (t : Team) : Team :=
  { t with teamScore := 0, teamRevivesLeft := INITIAL_TEAM_REVIVES,
           teamPlayersAlive := 4, teamEliminated := false }

def Team.roundReset (t : Team) : Team :=
  { t with teamRevivesLeft := INITIAL_TEAM_REVIVES,
           teamPlayersAlive := 4, teamEliminated := false }

def Team.handleTeamElimination (t : Team) : Team :=
  { t with teamEliminated := true }

def Team.handleTeamRevive (t : Team) : Team :=
  { t with teamRevivesLeft := t.teamRevivesLeft - 1,
           teamPlayersAlive := t.teamPlayersAlive + 1 }

/-- `handleTeamDeath` (Script.mts lines 80-85): unconditionally decrement
`teamPlayersAlive`; if the decremented value is exactly `0`, mark the
team eliminated. -/
def Team.handleTeamDeath (t : Team) : Team :=
  let t' : Team := { t with teamPlayersAlive := t.teamPlayersAlive - 1 }
  if t'.teamPlayersAlive == 0 then t'.handleTeamElimination else t'

def Team.hasTeamRevivesLeft (t : Team) : Bool :=
  t.teamRevivesLeft > 0

def Team.hasTeamPlayersAlive (t : Team) : Bool :=
  t.teamPlayersAlive > 0

def Team.isTeamEliminated (t : Team) : Bool :=
  t.teamEliminated

def Team.addRoundWin (t : Team) : Team :=
  { t with teamScore := t.teamScore + 1 }

def Team.hasWonGame (t : Team) : Bool :=
  t.teamScore ≥ ROUNDS_TO_WIN

/-! ### class Player (Script.mts lines 108-147) -/

structure Player where
  playerId : Int
  playerName : String
  playerTeam : Int
  playerAlive : Bool
  playerPinged : Bool
deriving DecidableEq, Repr

/-- The `Player` constructor (Script.mts lines 115-121). -/
def Player.new (playerId : Int) : Player :=
  { playerId := playerId, playerName := "", playerTeam := -1,
    playerAlive := true, playerPinged := false }

def Player.handlePlayerDeath (p : Player) : Player :=
  { p with playerAlive := false }

def Player.handlePlayerRevive (p : Player) : Player :=
  { p with playerAlive := true }

def Player.isPlayerAlive (p : Player) : Bool :=
  p.playerAlive

/-- `canBeRevived` (Script.mts lines 135-142): an alive player cannot be
revived; otherwise look the owning team up and require it to have both
revives left and players alive. -/
def Player.canBeRevived (p : Player) (teams : List Team) : Bool :=
  if p.playerAlive then false
  else
    match teams.find? (fun t => t.teamId == p.playerTeam) with
    | none => false
    | some playerTeam => playerTeam.hasTeamRevivesLeft && playerTeam.hasTeamPlayersAlive

def Player.setPlayerPinged (p : Player) (isPinged : Bool) : Player :=
  { p with playerPinged := isPinged }

/-! ### class GameState (Script.mts lines 150-219) -/

structure GameState where
  gameStarted : Bool
  gameEnded : Bool
  gameRound : Int
  teams : List Team
  players : List Player
  roundStarted : Bool
  roundEnded : Bool
  roundTimerSecs : Int
  roundInSuddenDeath : Bool
deriving DecidableEq, Repr

/-- The `GameState` constructor (Script.mts lines 161-171). -/
def GameState.new : GameState :=
  { gameStarted := false, gameEnded := false, gameRound := -1,
    teams := [], players := [],
    roundStarted := false, roundEnded := false,
    roundTimerSecs := 0, roundInSuddenDeath := false }

def GameState.startGame (gs : GameState) : GameState :=
  { gs with gameStarted := true, gameEnded := false }

def GameState.endGame (gs : GameState) : GameState :=
  { gs with gameStarted := false, gameEnded := true, gameRound := -1 }

/-- `GameState.startNewRound` (Script.mts lines 184-193): no validation;
resets the round-scoped flags, round-resets every team and clears every
player's ping. -/
def GameState.startNewRound (gs : GameState) (roundNumber : Int) : GameState :=
  { gs with gameRound := roundNumber, roundStarted := true, roundEnded := false,
            roundTimerSecs := 0, roundInSuddenDeath := false,
            teams := gs.teams.map Team.roundReset,
            players := gs.players.map (fun p => p.setPlayerPinged false) }

/-- `endRound` (Script.mts lines 195-201): the `console.debug` diagnostic
has no state effect; both flags are forced. -/
def GameState.endRound (gs : GameState) : GameState :=
  { gs with roundStarted := false, roundEnded := true }

def GameState.roundEnterSuddenDeath (gs : GameState) : GameState :=
  { gs with roundInSuddenDeath := true,
            players := gs.players.map (fun p => p.setPlayerPinged true) }

def GameState.getAliveTeams (gs : GameState) : List Team :=
  gs.teams.filter (fun s => !s.isTeamEliminated)

def GameState.getTeamById (gs : GameState) (teamId : Int) : Option Team :=
  gs.teams.find? (fun t => t.teamId == teamId)

def GameState.getAllPlayers (gs : GameState) : List Player :=
  gs.players

/-! ### class RoundState (src/unnamed/part_000 lines 193-227) -/

structure RoundState where
  roundStarted : Bool
  roundEnded : Bool
  roundNumber : Int
  roundTimerSecs : Int
  roundTeams : List Team
  roundPlayers : List Player
  isSuddenDeath : Bool
deriving DecidableEq, Repr

/-- The `RoundState` constructor (part_000 lines 202-210). -/
def RoundState.new : RoundState :=
  { roundStarted := false, roundEnded := false, roundNumber := -1,
    roundTimerSecs := 0, roundTeams := [], roundPlayers := [],
    isSuddenDeath := false }

/-- `RoundState.startNewRound` (part_000 lines 212-221): throws
`Invalid round number` when `roundNumber < 0 || roundNumber > MAX_ROUNDS`,
otherwise updates the round-scoped fields. The thrown exception is
embedded as `Except.error`. -/
def RoundState.startNewRound (roundNumber : Int) (rs : RoundState) :
    Except String RoundState :=
  if roundNumber < 0 || roundNumber > MAX_ROUNDS then
    Except.error ("Invalid round number: " ++ toString roundNumber)
  else
    Except.ok { rs with roundNumber := roundNumber, roundStarted := true,
                        roundEnded := false, roundTimerSecs := 0,
                        isSuddenDeath := false }

def RoundState.endRound (rs : RoundState) : RoundState :=
  { rs with roundStarted := false, roundEnded := true }

/-- Whether `RoundState.startNewRound` succeeds on a fresh round state for
a given round number. -/
def RoundState.startOk (roundNumber : Int) : Bool :=
  match RoundState.startNewRound roundNumber RoundState.new with
  | Except.ok _ => true
  | Except.error _ => false

/-! ### Spec-modelled pieces

The repository's host-event handlers are empty stubs: `OnPlayerDied` and
`OnPlayerJoinGame` in Script.mts have empty bodies, and no code under src
ever populates `game.teams` or `game.players` or applies a death/revive
to the state. The definitions below model those missing pieces from the
spec; everything they call (`Team.handleTeamDeath`, `Team.handleTeamRevive`,
`Player.canBeRevived`, `GameState.startGame`, ...) is the source's code. -/

/-- Modelled from the spec: the creation of the six squads, ids 0 through 5,
at game start ("created once per match (six instances, ids 0-5) at game
start"). The creating code is missing from src (`OnPlayerJoinGame` and
`OnGameModeStarted` never add teams); each squad is built with the source's
`Team` constructor. -/
def initTeams : List Team :=
  [Team.new 0, Team.new 1, Team.new 2, Team.new 3, Team.new 4, Team.new 5]

/-- Modelled from the spec: the match state immediately after game start.
Squad creation (missing from src, see `initTeams`) populates the team map,
then the source's `GameState.startGame` runs. -/
def gameSetup : GameState :=
  GameState.startGame { GameState.new with teams := initTeams }

/-- Modelled from the spec: the death event handler (`OnPlayerDied` in src is
an empty stub). Per spec 4.3, on a death notification for player P of squad
S: outside sudden death, `P.recordDeath()` then `S.recordDeath()`
(`handlePlayerDeath` / `handleTeamDeath` here); during sudden death the first
death eliminates the whole squad - every player of S is marked dead and S's
`eliminated` is forced true. The spec's squad invariant
(`eliminated == (playersAlive == 0)`) forces `playersAlive` to 0 in that
branch. Unknown player or squad ids leave the state unchanged. -/
def notifyDeath (pid : Int) (gs : GameState) : GameState :=
  match gs.players.find? (fun q => q.playerId == pid) with
  | none => gs
  | some p =>
    match gs.getTeamById p.playerTeam with
    | none => gs
    | some _ =>
      if gs.roundInSuddenDeath then
        { gs with
          players := gs.players.map (fun q =>
            if q.playerTeam == p.playerTeam then q.handlePlayerDeath else q)
          teams := gs.teams.map (fun t =>
            if t.teamId == p.playerTeam then
              { t.handleTeamElimination with teamPlayersAlive := 0 }
            else t) }
      else
        { gs with
          players := gs.players.map (fun q =>
            if q.playerId == pid then q.handlePlayerDeath else q)
          teams := gs.teams.map (fun t =>
            if t.teamId == p.playerTeam then t.handleTeamDeath else t) }

/-- Modelled from the spec: the revive event handler (no revive plumbing
exists in src). Per spec 4.3, a revive notification for player P is rejected
as a no-op unless `P.canBeRevived(squads)` (the source's predicate) holds;
when accepted, `P.recordRevive()` then the owning squad's `recordRevive()`
(`handlePlayerRevive` / `handleTeamRevive` here). -/
def notifyRevive (pid : Int) (gs : GameState) : GameState :=
  match gs.players.find? (fun q => q.playerId == pid) with
  | none => gs
  | some p =>
    if p.canBeRevived gs.teams then
      { gs with
        players := gs.players.map (fun q =>
          if q.playerId == pid then q.handlePlayerRevive else q)
        teams := gs.teams.map (fun t =>
          if t.teamId == p.playerTeam then t.handleTeamRevive else t) }
    else gs

/-! ### The round tick loop and the match loop (Script.mts lines 238-289)

`OnGameModeStarted` drives the match: an outer `while` over rounds guarded
by `every(!hasWonGame) && roundNumber < MAX_NUMBER_OF_ROUNDS`, and an inner
per-second `while` guarded by `getAliveTeams().length > 1 &&
roundTimerSecs < ROUND_TIMER_SECS + SUDDEN_DEATH_TIMER_SECS`. Death and
revive notifications arrive while the loop is suspended in `mod.Wait(1)`;
they are modelled by a schedule giving the events delivered at each tick of
each round. Both loops are embedded with explicit fuel strictly larger than
their maximal iteration count (the tick counter and the round counter grow
by one per iteration toward a fixed bound), so the fuel never binds. -/

/-- A death or revive notification from the host, keyed by player id. -/
inductive GEvent where
  | death (pid : Int)
  | revive (pid : Int)
deriving DecidableEq, Repr

def applyEvent (e : GEvent) (gs : GameState) : GameState :=
  match e with
  | GEvent.death pid => notifyDeath pid gs
  | GEvent.revive pid => notifyRevive pid gs

def applyEvents (es : List GEvent) (gs : GameState) : GameState :=
  es.foldl (fun g e => applyEvent e g) gs

/-- One run of the inner per-second loop (Script.mts lines 251-262), with
explicit fuel. Each iteration: deliver the tick's events (arriving during
`mod.Wait(1)`), enter sudden death when the local counter equals
`ROUND_TIMER_SECS`, then increment the counter. Returns the state and the
counter at loop exit. -/
def tickLoopAux (evs : Nat → List GEvent) : Nat → GameState → Nat → GameState × Nat
  | 0, gs, t => (gs, t)
  | fuel + 1, gs, t =>
    if gs.getAliveTeams.length > 1 ∧ t < ROUND_TIMER_SECS + SUDDEN_DEATH_TIMER_SECS then
      let gs1 := applyEvents (evs t) gs
      let gs2 := if t == ROUND_TIMER_SECS then gs1.roundEnterSuddenDeath else gs1
      tickLoopAux evs fuel gs2 (t + 1)
    else (gs, t)

/-- The inner loop started with enough fuel: the counter increases by one
per iteration and the guard needs `t < 720`, so at most `720` iterations run
from `t = 0` and fuel `721` never binds. -/
def tickLoop (evs : Nat → List GEvent) (gs : GameState) (t : Nat) : GameState × Nat :=
  tickLoopAux evs (ROUND_TIMER_SECS + SUDDEN_DEATH_TIMER_SECS + 1) gs t

/-- Award a round win to the first non-eliminated team of the list:
Script.mts lines 264-267 call `addRoundWin` on `getAliveTeams()[0]`, which
aliases the first non-eliminated entry of the team map. -/
def addWinToFirstAlive : List Team → List Team
  | [] => []
  | t :: ts =>
    if !t.isTeamEliminated then t.addRoundWin :: ts
    else t :: addWinToFirstAlive ts

/-- Round-outcome evaluation after the tick loop exits (Script.mts lines
264-275): exactly one alive team gets `addRoundWin`; otherwise only a log
line runs and the state is untouched. -/
def resolveRound (gs : GameState) : GameState :=
  if gs.getAliveTeams.length == 1 then
    { gs with teams := addWinToFirstAlive gs.teams }
  else gs

/-- One iteration of the outer round loop body (Script.mts lines 247-278):
`startNewRound`, the tick loop from a fresh local counter, round-outcome
evaluation, `endRound`. `sched n t` is the list of events delivered at tick
`t` of round `n`. -/
def playRound (sched : Nat → Nat → List GEvent) (n : Nat) (gs : GameState) : GameState :=
  ((resolveRound (tickLoop (sched n) (gs.startNewRound (Int.ofNat n)) 0).1)).endRound

/-- The outer loop guard `[...game.teams.values()].every(team =>
!team.hasWonGame())` (Script.mts line 244). -/
def noWinnerB (gs : GameState) : Bool :=
  gs.teams.all (fun t => !t.hasWonGame)

/-- The outer round loop (Script.mts lines 243-279), fuel-bounded; the
round counter grows by one per iteration and the guard requires
`roundNumber < 7`, so fuel `8` never binds from `roundNumber = 0`. Returns
the state and the round counter at loop exit. -/
def matchLoopAux (sched : Nat → Nat → List GEvent) :
    Nat → GameState → Nat → GameState × Nat
  | 0, gs, n => (gs, n)
  | fuel + 1, gs, n =>
    if noWinnerB gs = true ∧ n < MAX_NUMBER_OF_ROUNDS then
      matchLoopAux sched fuel (playRound sched n gs) (n + 1)
    else (gs, n)

def matchLoop (sched : Nat → Nat → List GEvent) (gs : GameState) (n : Nat) :
    GameState × Nat :=
  matchLoopAux sched (MAX_NUMBER_OF_ROUNDS + 1) gs n

/-- `OnGameModeStarted` from `startGame` already performed (Script.mts lines
242-289): run the round loop from round 0, then `endGame`. The winning-team
computation at lines 281-286 only logs. Returns the final state and the
number of rounds executed. -/
def runMatch (sched : Nat → Nat → List GEvent) (gs : GameState) : GameState × Nat :=
  ((matchLoop sched gs 0).1.endGame, (matchLoop sched gs 0).2)

/-- The state after unconditionally playing rounds `n, n+1, ..., n+k-1`. -/
def iterFrom (sched : Nat → Nat → List GEvent) : GameState → Nat → Nat → GameState
  | gs, _, 0 => gs
  | gs, n, k + 1 => iterFrom sched (playRound sched n gs) (n + 1) k

/-- The state after unconditionally playing the first `k` rounds. -/
def roundsIter (sched : Nat → Nat → List GEvent) (gs : GameState) (k : Nat) : GameState :=
  iterFrom sched gs 0 k

/-! ### Per-squad operation sequences (for the squad-level invariant claims) -/

/-- The state-mutating `Team` operations: `gameReset`/`roundReset` (the
spec's `reset(forGame)`), `handleTeamDeath` (`recordDeath`),
`handleTeamRevive` (`recordRevive`) and `addRoundWin` (`recordRoundWin`). -/
inductive SquadOp where
  | reset (forGame : Bool)
  | death
  | revive
  | roundWin
deriving DecidableEq, Repr

def applySquadOp (t : Team) : SquadOp → Team
  | SquadOp.reset true => t.gameReset
  | SquadOp.reset false => t.roundReset
  | SquadOp.death => t.handleTeamDeath
  | SquadOp.revive => t.handleTeamRevive
  | SquadOp.roundWin => t.addRoundWin

def applySquadOps (t : Team) (ops : List SquadOp) : Team :=
  ops.foldl applySquadOp t

/-- The spec's per-squad invariant: `eliminated == (playersAlive == 0)`. -/
def squadInvariant (t : Team) : Prop :=
  t.teamEliminated = (t.teamPlayersAlive == 0)

instance squadInvariantDecidable (t : Team) : Decidable (squadInvariant t) :=
  inferInstanceAs (Decidable (_ = _))

/-- The caller discipline the spec imposes on squad mutations (spec 4.1):
`recordDeath` is never invoked on an already-eliminated squad (here: only
while `playersAlive > 0`), and `recordRevive` only after `canRevive()`
(the source's `hasTeamRevivesLeft && hasTeamPlayersAlive`) was verified. -/
def squadGuard (t : Team) : SquadOp → Bool
  | SquadOp.reset _ => true
  | SquadOp.death => t.teamPlayersAlive > 0
  | SquadOp.revive => t.hasTeamRevivesLeft && t.hasTeamPlayersAlive
  | SquadOp.roundWin => true

/-- Whether every operation of the sequence respects `squadGuard` in the
state it is applied in. -/
def validSquadSeq : Team → List SquadOp → Bool
  | _, [] => true
  | t, op :: ops => squadGuard t op && validSquadSeq (applySquadOp t op) ops

/-! ### In-round operations on the whole match state (for the elimination
latch claim): everything that can touch a squad between two calls of
`startNewRound`. -/

inductive RoundOp where
  | death (pid : Int)
  | revive (pid : Int)
  | sudden
  | outcome
  | finishRound
deriving DecidableEq, Repr

def applyRoundOp (gs : GameState) : RoundOp → GameState
  | RoundOp.death pid => notifyDeath pid gs
  | RoundOp.revive pid => notifyRevive pid gs
  | RoundOp.sudden => gs.roundEnterSuddenDeath
  | RoundOp.outcome => resolveRound gs
  | RoundOp.finishRound => gs.endRound

def applyRoundOps (gs : GameState) (ops : List RoundOp) : GameState :=
  ops.foldl applyRoundOp gs

/-- Team `i` of the state is eliminated (by position in the team map). -/
def elimAt (gs : GameState) (i : Nat) : Prop :=
  (gs.teams[i]?).map Team.teamEliminated = some true

instance elimAtDecidable (gs : GameState) (i : Nat) : Decidable (elimAt gs i) :=
  inferInstanceAs (Decidable (_ = _))

/-- The structural facts every in-round reachable state enjoys: team ids are
pairwise distinct (they come from the source's `Map<number, Team>` keyed by
id), and an eliminated team has no players alive (`teamPlayersAlive ≤ 0`,
the count possibly negative through unchecked decrements). -/
def roundSafe (gs : GameState) : Prop :=
  (gs.teams.map Team.teamId).Nodup ∧
    ∀ t ∈ gs.teams, t.teamEliminated = true → t.teamPlayersAlive ≤ 0

/-! ### Concrete states used to evaluate the theorems on closed inputs -/

/-- The empty event schedule: no death or revive notification ever arrives
(what the shipped code produces, since `OnPlayerDied` is a stub). -/
def noEvents : Nat → List GEvent := fun _ => []

/-- The empty per-round schedule. -/
def schedEmpty : Nat → Nat → List GEvent := fun _ _ => []

/-- A match state holding a single squad (id 0). -/
def soloState : GameState :=
  { GameState.new with teams := [Team.new 0] }

/-- A dead player with id 7 on squad 2. -/
def deadPlayer2 : Player :=
  { playerId := 7, playerName := "", playerTeam := 2,
    playerAlive := false, playerPinged := false }

/-- Four alive players, ids 10-13, on squad 2, plus one alive player id 20
on squad 0. -/
def squad2Roster : List Player :=
  [ { playerId := 10, playerName := "", playerTeam := 2, playerAlive := true, playerPinged := false }
  , { playerId := 11, playerName := "", playerTeam := 2, playerAlive := true, playerPinged := false }
  , { playerId := 12, playerName := "", playerTeam := 2, playerAlive := true, playerPinged := false }
  , { playerId := 13, playerName := "", playerTeam := 2, playerAlive := true, playerPinged := false }
  , { playerId := 20, playerName := "", playerTeam := 0, playerAlive := true, playerPinged := false } ]

/-- A sudden-death match state: six fresh squads, squad 2 fully manned. -/
def suddenState : GameState :=
  { GameState.new with teams := initTeams, players := squad2Roster,
                       roundInSuddenDeath := true }

/-- A two-team state in which team 0 is eliminated and team 1 alive. -/
def oneAliveState : GameState :=
  { GameState.new with
    teams := [ { Team.new 0 with teamPlayersAlive := 0, teamEliminated := true }
             , Team.new 1 ] }

/-- Six fresh squads plus one alive player (id 0) on squad 0. -/
def latchState : GameState :=
  { GameState.new with
    teams := initTeams,
    players := [ { playerId := 0, playerName := "", playerTeam := 0,
                   playerAlive := true, playerPinged := false } ] }

/-- A dead player with id 0 on squad 0. -/
def latchDeadPlayer : Player :=
  { playerId := 0, playerName := "", playerTeam := 0,
    playerAlive := false, playerPinged := false }

/-- Squad 0 of `latchState` after its four in-round deaths. -/
def latchElimTeam : Team :=
  { teamId := 0, teamName := "Alfa", teamScore := 0, teamRevivesLeft := 4,
    teamPlayersAlive := 0, teamEliminated := true }

/-- A squad after four straight deaths from a fresh construction:
`playersAlive = 0`, `eliminated = true`. -/
def drainedSquad : Team :=
  applySquadOps (Team.new 3) [SquadOp.death, SquadOp.death, SquadOp.death, SquadOp.death]

/-! ## Theorems -/

/-! ### Squad-level lemmas -/

/-- A single guarded squad operation preserves nonnegativity of the alive
counter together with the spec invariant. -/
theorem squadInv_step (t : Team) (op : SquadOp)
    (hnn : 0 ≤ t.teamPlayersAlive) (hinv : squadInvariant t)
    (hg : squadGuard t op = true) :
    0 ≤ (applySquadOp t op).teamPlayersAlive ∧ squadInvariant (applySquadOp t op) := by
  cases op with
  | reset b =>
    cases b <;>
      simp [applySquadOp, Team.gameReset, Team.roundReset, squadInvariant]
  | death =>
    have halive : 0 < t.teamPlayersAlive := by
      simpa [squadGuard] using hg
    simp only [applySquadOp, Team.handleTeamDeath, Team.handleTeamElimination]
    by_cases h0 : t.teamPlayersAlive - 1 = 0
    · simp [squadInvariant, h0]
    · have : (t.teamPlayersAlive - 1 == 0) = false := by
        simpa using h0
      simp only [this, Bool.false_eq_true, if_false]
      constructor
      · show 0 ≤ t.teamPlayersAlive - 1
        omega
      · have helim : t.teamEliminated = false := by
          rw [hinv]
          simpa using (by omega : ¬ t.teamPlayersAlive = 0)
        simp [squadInvariant, helim]
        omega
  | revive =>
    have halive : 0 < t.teamPlayersAlive := by
      have := (Bool.and_eq_true _ _).mp (by simpa [squadGuard] using hg)
      simpa [Team.hasTeamPlayersAlive] using this.2
    have helim : t.teamEliminated = false := by
      rw [hinv]
      simpa using (by omega : ¬ t.teamPlayersAlive = 0)
    simp only [applySquadOp, Team.handleTeamRevive]
    refine ⟨by show 0 ≤ t.teamPlayersAlive + 1; omega, ?_⟩
    simp [squadInvariant, helim]
    omega
  | roundWin =>
    simpa [applySquadOp, Team.addRoundWin, squadInvariant] using ⟨hnn, hinv⟩

/-- Guarded squad-operation sequences preserve the invariant. -/
theorem squadInv_fold (ops : List SquadOp) :
    ∀ t : Team, 0 ≤ t.teamPlayersAlive → squadInvariant t →
      validSquadSeq t ops = true →
      0 ≤ (applySquadOps t ops).teamPlayersAlive ∧ squadInvariant (applySquadOps t ops) := by
  induction ops with
  | nil => intro t hnn hinv _; exact ⟨hnn, hinv⟩
  | cons op ops ih =>
    intro t hnn hinv hv
    have hv' := (Bool.and_eq_true _ _).mp (by simpa [validSquadSeq] using hv)
    have hstep := squadInv_step t op hnn hinv hv'.1
    simpa [applySquadOps, List.foldl_cons] using
      ih (applySquadOp t op) hstep.1 hstep.2 hv'.2

/-- C2 as stated is false: five straight deaths from a fresh squad leave
`playersAlive = -1` with `eliminated = true`, breaking
`eliminated == (playersAlive == 0)`. -/
theorem claim_C2_counterexample :
    ¬ ∀ ops : List SquadOp, squadInvariant (applySquadOps (Team.new 0) ops) :=
  fun h =>
    absurd
      (h [SquadOp.death, SquadOp.death, SquadOp.death, SquadOp.death, SquadOp.death])
      (by decide)

/-- C2 (amended): starting from a freshly constructed squad, the invariant
`eliminated == (playersAlive == 0)` holds after every sequence of
reset/recordDeath/recordRevive/recordRoundWin in which each `recordDeath`
is applied only while `playersAlive > 0` and each `recordRevive` only while
`canRevive` (revives left and players alive) holds - the caller discipline
the spec imposes. -/
theorem claim_C2 (i : Int) (ops : List SquadOp)
    (hv : validSquadSeq (Team.new i) ops = true) :
    squadInvariant (applySquadOps (Team.new i) ops) :=
  (squadInv_fold ops (Team.new i) (by simp [Team.new])
    (by simp [Team.new, squadInvariant]) hv).2

theorem claim_C2_witness :
    validSquadSeq (Team.new 0)
      [SquadOp.death, SquadOp.revive, SquadOp.death, SquadOp.death, SquadOp.death, SquadOp.death]
      = true ∧
    squadInvariant (applySquadOps (Team.new 0)
      [SquadOp.death, SquadOp.revive, SquadOp.death, SquadOp.death, SquadOp.death, SquadOp.death]) :=
  ⟨by decide, claim_C2 0 _ (by decide)⟩

/-- C3 as stated is false: a fifth death on a squad whose `playersAlive` is
already `0` does not leave the counter at `0`. -/
theorem claim_C3_counterexample :
    drainedSquad.teamPlayersAlive = 0 ∧
      ¬ (drainedSquad.handleTeamDeath).teamPlayersAlive = 0 := by
  decide

/-- C3 (amended): applying one more death (`handleTeamDeath`) to a squad
whose `playersAlive` is `0` decrements the counter to `-1` - the decrement
is unchecked and the counter does go negative - while `eliminated` is left
unchanged. -/
theorem claim_C3 (t : Team) (h : t.teamPlayersAlive = 0) :
    (t.handleTeamDeath).teamPlayersAlive = -1 ∧
      (t.handleTeamDeath).teamEliminated = t.teamEliminated := by
  simp [Team.handleTeamDeath, Team.handleTeamElimination, h]

theorem claim_C3_witness :
    drainedSquad.teamPlayersAlive = 0 ∧
      ((drainedSquad.handleTeamDeath).teamPlayersAlive = -1 ∧
        (drainedSquad.handleTeamDeath).teamEliminated = drainedSquad.teamEliminated) :=
  ⟨by decide, claim_C3 drainedSquad (by decide)⟩

/-- C4: immediately after game start - six squads created (spec-modelled,
see `initTeams`) and the source's `startGame()` run - the match state holds
exactly six squads with ids 0 through 5, each with `roundsWon = 0`, and
`gameStarted = true`, `gameEnded = false`. -/
theorem claim_C4 :
    gameSetup.teams.length = 6 ∧
    gameSetup.teams.map Team.teamId = [0, 1, 2, 3, 4, 5] ∧
    (∀ t ∈ gameSetup.teams, t.teamScore = 0) ∧
    gameSetup.gameStarted = true ∧
    gameSetup.gameEnded = false := by
  refine ⟨by decide, by decide, ?_, by decide, by decide⟩
  intro t ht
  simp only [gameSetup, GameState.startGame, GameState.new, initTeams,
    List.mem_cons, List.not_mem_nil, or_false] at ht
  rcases ht with rfl | rfl | rfl | rfl | rfl | rfl <;> rfl

theorem claim_C4_witness : (Team.new 3).teamScore = 0 :=
  claim_C4.2.2.1 (Team.new 3) (by decide)

/-- C5 is a code bug: `RoundState.startNewRound` validates
`roundNumber < 0 || roundNumber > MAX_ROUNDS` with `MAX_ROUNDS = 7`, so the
out-of-range round number `7` (valid rounds are 0..6, as the driver loop
`roundNumber < MAX_ROUNDS` shows) is accepted; `8` and `-1` are rejected
and the in-range `0` and `6` accepted. -/
theorem claim_C5_code_bug :
    RoundState.startOk 7 = true ∧
    RoundState.startOk 8 = false ∧
    RoundState.startOk (-1) = false ∧
    RoundState.startOk 0 = true ∧
    RoundState.startOk 6 = true ∧
    (GameState.new.startNewRound (-5)).roundStarted = true ∧
    (GameState.new.startNewRound (-5)).gameRound = -5 := by
  decide

/-- C1: while the round is in sudden death, a single death notification for
a player P of squad S (the spec-modelled `notifyDeath`, see its doc comment)
leaves every player of S dead and S's `eliminated` flag true - with no
assumption on S's previous `playersAlive` count. -/
theorem claim_C1 (gs : GameState) (pid : Int) (p : Player) (s : Team)
    (hsd : gs.roundInSuddenDeath = true)
    (hp : gs.players.find? (fun q => q.playerId == pid) = some p)
    (hs : gs.getTeamById p.playerTeam = some s) :
    (∀ q ∈ (notifyDeath pid gs).players, q.playerTeam = p.playerTeam → q.playerAlive = false) ∧
    (∀ t ∈ (notifyDeath pid gs).teams, t.teamId = p.playerTeam → t.teamEliminated = true) := by
  unfold notifyDeath
  simp only [hp, hs, hsd, if_true]
  constructor
  · intro q hq hteam
    rcases List.mem_map.mp hq with ⟨q0, hq0, rfl⟩
    by_cases hb : q0.playerTeam = p.playerTeam
    · simp [hb, Player.handlePlayerDeath]
    · simp only [beq_iff_eq, hb, if_false] at hteam ⊢
  · intro t ht hteam
    rcases List.mem_map.mp ht with ⟨t0, ht0, rfl⟩
    by_cases hb : t0.teamId = p.playerTeam
    · simp [hb, Team.handleTeamElimination]
    · simp only [beq_iff_eq, hb, if_false] at hteam ⊢

theorem claim_C1_witness :
    (∀ q ∈ (notifyDeath 10 suddenState).players,
        q.playerTeam = (2 : Int) → q.playerAlive = false) ∧
    (∀ t ∈ (notifyDeath 10 suddenState).teams,
        t.teamId = (2 : Int) → t.teamEliminated = true) :=
  claim_C1 suddenState 10
    { playerId := 10, playerName := "", playerTeam := 2,
      playerAlive := true, playerPinged := false }
    (Team.new 2) (by decide) (by decide) (by decide)

/-- One non-eliminated team in the filter means the team list splits as
eliminated teams around it, and `addWinToFirstAlive` rewrites exactly that
team. -/
theorem filter_single_decomp (l : List Team) (w : Team)
    (h : l.filter (fun s => !s.isTeamEliminated) = [w]) :
    ∃ l1 l2, l = l1 ++ w :: l2 ∧
      addWinToFirstAlive l = l1 ++ w.addRoundWin :: l2 ∧
      (∀ t ∈ l1, t.teamEliminated = true) ∧ (∀ t ∈ l2, t.teamEliminated = true) := by
  induction l with
  | nil => simp at h
  | cons t ts ih =>
    by_cases he : t.teamEliminated = true
    · have hfil : (t :: ts).filter (fun s => !s.isTeamEliminated) =
          ts.filter (fun s => !s.isTeamEliminated) := by
        simp [List.filter_cons, Team.isTeamEliminated, he]
      rw [hfil] at h
      obtain ⟨l1, l2, h1, h2, h3, h4⟩ := ih h
      refine ⟨t :: l1, l2, by rw [h1]; rfl, ?_, ?_, h4⟩
      · simp only [addWinToFirstAlive, Team.isTeamEliminated, he,
          Bool.not_true, Bool.false_eq_true, if_false, h2]
        rfl
      · intro x hx
        rcases List.mem_cons.mp hx with rfl | hx
        · exact he
        · exact h3 x hx
    · have he' : t.teamEliminated = false := by
        cases hcase : t.teamEliminated
        · rfl
        · exact absurd hcase he
      have hfil : (t :: ts).filter (fun s => !s.isTeamEliminated) =
          t :: ts.filter (fun s => !s.isTeamEliminated) := by
        simp [List.filter_cons, Team.isTeamEliminated, he']
      rw [hfil] at h
      have hw : t = w := (List.cons_eq_cons.mp h).1
      have hnil : ts.filter (fun s => !s.isTeamEliminated) = [] :=
        (List.cons_eq_cons.mp h).2
      subst hw
      refine ⟨[], ts, rfl, ?_, by simp, ?_⟩
      · simp [addWinToFirstAlive, Team.isTeamEliminated, he']
      · intro x hx
        have := List.filter_eq_nil_iff.mp hnil x hx
        simpa [Team.isTeamEliminated] using this

/-- C6: the round outcome after the tick loop exits is a pure function of
the alive-team count: with exactly one un-eliminated squad, that squad's
score is incremented by exactly one and every other squad is untouched;
with zero or several un-eliminated squads the state is unchanged. -/
theorem claim_C6 (gs : GameState) :
    (gs.getAliveTeams.length ≠ 1 → resolveRound gs = gs) ∧
    (∀ w, gs.getAliveTeams = [w] →
      ∃ l1 l2, gs.teams = l1 ++ w :: l2 ∧
        (resolveRound gs).teams = l1 ++ w.addRoundWin :: l2 ∧
        w.addRoundWin.teamScore = w.teamScore + 1 ∧
        (∀ t ∈ l1, t.teamEliminated = true) ∧ (∀ t ∈ l2, t.teamEliminated = true)) := by
  constructor
  · intro h
    unfold resolveRound
    rw [if_neg]
    simpa using h
  · intro w hw
    have hlen : gs.getAliveTeams.length = 1 := by rw [hw]; rfl
    obtain ⟨l1, l2, h1, h2, h3, h4⟩ :=
      filter_single_decomp gs.teams w (by simpa [GameState.getAliveTeams] using hw)
    refine ⟨l1, l2, h1, ?_, rfl, h3, h4⟩
    unfold resolveRound
    rw [if_pos (by simpa using hlen)]
    exact h2

theorem claim_C6_witness :
    ∃ l1 l2, oneAliveState.teams = l1 ++ (Team.new 1) :: l2 ∧
      (resolveRound oneAliveState).teams = l1 ++ (Team.new 1).addRoundWin :: l2 ∧
      (Team.new 1).addRoundWin.teamScore = (Team.new 1).teamScore + 1 ∧
      (∀ t ∈ l1, t.teamEliminated = true) ∧ (∀ t ∈ l2, t.teamEliminated = true) :=
  (claim_C6 oneAliveState).2 (Team.new 1) (by decide)

/-! ### Elimination-latch lemmas (claim C8) -/

/-- `handleTeamDeath` never clears the eliminated flag. -/
theorem handleTeamDeath_elim_mono (t : Team) (h : t.teamEliminated = true) :
    (t.handleTeamDeath).teamEliminated = true := by
  simp only [Team.handleTeamDeath, Team.handleTeamElimination]
  split
  · rfl
  · exact h

/-- `handleTeamDeath` preserves eliminated-implies-none-alive. -/
theorem handleTeamDeath_safe (t : Team)
    (h : t.teamEliminated = true → t.teamPlayersAlive ≤ 0) :
    (t.handleTeamDeath).teamEliminated = true → (t.handleTeamDeath).teamPlayersAlive ≤ 0 := by
  unfold Team.handleTeamDeath Team.handleTeamElimination
  by_cases h0 : (t.teamPlayersAlive - 1 == 0) = true
  · have h0' : t.teamPlayersAlive - 1 = 0 := by simpa using h0
    simp only [h0, if_true]
    intro _
    show t.teamPlayersAlive - 1 ≤ 0
    omega
  · simp only [h0, Bool.false_eq_true, if_false]
    intro helim
    have := h helim
    show t.teamPlayersAlive - 1 ≤ 0
    omega

/-- Mapping an elimination-monotone team function keeps positional
elimination facts. -/
theorem elim_some_map (l : List Team) (f : Team → Team) (i : Nat)
    (hf : ∀ t, t.teamEliminated = true → (f t).teamEliminated = true)
    (h : (l[i]?).map Team.teamEliminated = some true) :
    ((l.map f)[i]?).map Team.teamEliminated = some true := by
  rw [List.getElem?_map]
  cases hg : l[i]? with
  | none => rw [hg] at h; simp at h
  | some t =>
    rw [hg] at h
    have ht : t.teamEliminated = true := by simpa using h
    simp [hf t ht]

/-- `addWinToFirstAlive` keeps every positional eliminated flag. -/
theorem addWin_elim_getElem? (l : List Team) :
    ∀ i : Nat, ((addWinToFirstAlive l)[i]?).map Team.teamEliminated =
      (l[i]?).map Team.teamEliminated := by
  induction l with
  | nil => intro i; rfl
  | cons t ts ih =>
    intro i
    unfold addWinToFirstAlive
    split
    · cases i <;> simp [Team.addRoundWin]
    · cases i <;> simp [ih]

/-- Mapping a team-id-preserving function keeps the id list. -/
theorem ids_map_of_pres (l : List Team) (f : Team → Team)
    (hf : ∀ t, (f t).teamId = t.teamId) :
    (l.map f).map Team.teamId = l.map Team.teamId := by
  induction l with
  | nil => rfl
  | cons t ts ih => simp [hf, ih]

/-- `addWinToFirstAlive` keeps the id list. -/
theorem addWin_map_teamId (l : List Team) :
    (addWinToFirstAlive l).map Team.teamId = l.map Team.teamId := by
  induction l with
  | nil => rfl
  | cons t ts ih =>
    unfold addWinToFirstAlive
    split
    · simp [Team.addRoundWin]
    · simp [ih]

/-- Properties closed under `addRoundWin` carry over `addWinToFirstAlive`. -/
theorem addWin_forall (P : Team → Prop) (hP : ∀ u, P u → P u.addRoundWin) :
    ∀ l : List Team, (∀ t ∈ l, P t) → ∀ t ∈ addWinToFirstAlive l, P t := by
  intro l
  induction l with
  | nil => intro _ t ht; simp [addWinToFirstAlive] at ht
  | cons u ts ih =>
    intro hall t ht
    unfold addWinToFirstAlive at ht
    split at ht
    · rcases List.mem_cons.mp ht with rfl | hts
      · exact hP u (hall u (by simp))
      · exact hall t (by simp [hts])
    · rcases List.mem_cons.mp ht with rfl | hts
      · exact hall t (by simp)
      · exact ih (fun x hx => hall x (by simp [hx])) t hts

/-- Transport `roundSafe` through a map on the team list. -/
theorem roundSafe_set_teams_map {gs gs' : GameState} {f : Team → Team}
    (h : roundSafe gs)
    (hteams : gs'.teams = gs.teams.map f)
    (hid : ∀ t, (f t).teamId = t.teamId)
    (hinv : ∀ t ∈ gs.teams, (t.teamEliminated = true → t.teamPlayersAlive ≤ 0) →
        (f t).teamEliminated = true → (f t).teamPlayersAlive ≤ 0) :
    roundSafe gs' := by
  unfold roundSafe
  rw [hteams]
  refine ⟨by rw [ids_map_of_pres gs.teams f hid]; exact h.1, ?_⟩
  intro t' ht'
  rcases List.mem_map.mp ht' with ⟨t, htl, rfl⟩
  exact hinv t htl (h.2 t htl)

/-- Every in-round operation preserves `roundSafe`. -/
theorem roundSafe_op (gs : GameState) (op : RoundOp) (h : roundSafe gs) :
    roundSafe (applyRoundOp gs op) := by
  cases op with
  | sudden => exact h
  | finishRound => exact h
  | outcome =>
    simp only [applyRoundOp, resolveRound]
    split
    · refine ⟨?_, ?_⟩
      · show ((addWinToFirstAlive gs.teams).map Team.teamId).Nodup
        rw [addWin_map_teamId]
        exact h.1
      · exact addWin_forall _ (fun u hu hw => hu hw) gs.teams h.2
    · exact h
  | death pid =>
    cases hfp : gs.players.find? (fun q => q.playerId == pid) with
    | none => simp only [applyRoundOp, notifyDeath, hfp]; exact h
    | some p =>
      cases hft : gs.getTeamById p.playerTeam with
      | none => simp only [applyRoundOp, notifyDeath, hfp, hft]; exact h
      | some s =>
        simp only [applyRoundOp, notifyDeath, hfp, hft]
        split
        · refine roundSafe_set_teams_map h rfl ?_ ?_
          · intro t
            split <;> simp [Team.handleTeamElimination]
          · intro t _ hi
            split
            · intro _
              show (0 : Int) ≤ 0
              omega
            · exact hi
        · refine roundSafe_set_teams_map h rfl ?_ ?_
          · intro t
            split
            · simp [Team.handleTeamDeath, Team.handleTeamElimination]
              split <;> rfl
            · rfl
          · intro t _ hi
            split
            · exact handleTeamDeath_safe t hi
            · exact hi
  | revive pid =>
    cases hfp : gs.players.find? (fun q => q.playerId == pid) with
    | none => simp only [applyRoundOp, notifyRevive, hfp]; exact h
    | some p =>
      by_cases hrev : p.canBeRevived gs.teams = true
      · simp only [applyRoundOp, notifyRevive, hfp, hrev, if_true]
        unfold Player.canBeRevived at hrev
        cases hpa : p.playerAlive
        · rw [hpa] at hrev
          simp only [Bool.false_eq_true, if_false] at hrev
          cases hfind : gs.teams.find? (fun t => t.teamId == p.playerTeam) with
          | none => rw [hfind] at hrev; simp at hrev
          | some tm =>
            rw [hfind] at hrev
            have htmAlive : 0 < tm.teamPlayersAlive := by
              have := (Bool.and_eq_true _ _).mp hrev
              simpa [Team.hasTeamPlayersAlive] using this.2
            have htmMem : tm ∈ gs.teams := List.mem_of_find?_eq_some hfind
            have htmId : tm.teamId = p.playerTeam := by
              simpa using List.find?_some hfind
            refine roundSafe_set_teams_map h rfl ?_ ?_
            · intro t
              split <;> simp [Team.handleTeamRevive]
            · intro t htl hi
              by_cases hb : t.teamId = p.playerTeam
              · have hteq : t = tm :=
                  List.inj_on_of_nodup_map h.1 htl htmMem (by rw [hb, htmId])
                have halive : 0 < t.teamPlayersAlive := hteq ▸ htmAlive
                have helim : t.teamEliminated = false := by
                  cases hcase : t.teamEliminated
                  · rfl
                  · exact absurd (hi hcase) (by omega)
                simp [beq_iff_eq, hb, Team.handleTeamRevive, helim]
              · simp only [beq_iff_eq, hb, if_false]
                exact hi
        · rw [hpa] at hrev
          simp at hrev
      · have hrev' : p.canBeRevived gs.teams = false := by
          cases hcase : p.canBeRevived gs.teams
          · rfl
          · exact absurd hcase hrev
        simp only [applyRoundOp, notifyRevive, hfp, hrev', Bool.false_eq_true, if_false]
        exact h

/-- Every in-round operation keeps positional elimination facts. -/
theorem elimAt_op (gs : GameState) (op : RoundOp) (i : Nat) (h : elimAt gs i) :
    elimAt (applyRoundOp gs op) i := by
  cases op with
  | sudden => exact h
  | finishRound => exact h
  | outcome =>
    simp only [applyRoundOp, resolveRound]
    split
    · unfold elimAt at h ⊢
      show Option.map Team.teamEliminated ((addWinToFirstAlive gs.teams)[i]?) = some true
      rw [addWin_elim_getElem? gs.teams i]
      exact h
    · exact h
  | death pid =>
    cases hfp : gs.players.find? (fun q => q.playerId == pid) with
    | none => simp only [applyRoundOp, notifyDeath, hfp]; exact h
    | some p =>
      cases hft : gs.getTeamById p.playerTeam with
      | none => simp only [applyRoundOp, notifyDeath, hfp, hft]; exact h
      | some s =>
        simp only [applyRoundOp, notifyDeath, hfp, hft]
        unfold elimAt at h ⊢
        split
        · show Option.map Team.teamEliminated
            ((gs.teams.map (fun t =>
              if (t.teamId == p.playerTeam) = true then
                { t.handleTeamElimination with teamPlayersAlive := 0 }
              else t))[i]?) = some true
          refine elim_some_map gs.teams _ i ?_ h
          intro t ht
          split
          · rfl
          · exact ht
        · show Option.map Team.teamEliminated
            ((gs.teams.map (fun t =>
              if (t.teamId == p.playerTeam) = true then t.handleTeamDeath else t))[i]?) =
            some true
          refine elim_some_map gs.teams _ i ?_ h
          intro t ht
          split
          · exact handleTeamDeath_elim_mono t ht
          · exact ht
  | revive pid =>
    cases hfp : gs.players.find? (fun q => q.playerId == pid) with
    | none => simp only [applyRoundOp, notifyRevive, hfp]; exact h
    | some p =>
      simp only [applyRoundOp, notifyRevive, hfp]
      unfold elimAt at h ⊢
      split
      · show Option.map Team.teamEliminated
          ((gs.teams.map (fun t =>
            if (t.teamId == p.playerTeam) = true then t.handleTeamRevive else t))[i]?) =
          some true
        refine elim_some_map gs.teams _ i ?_ h
        intro t ht
        split
        · exact ht
        · exact ht
      · exact h

/-- `roundSafe` is preserved by whole in-round operation sequences. -/
theorem roundSafe_ops (l : List RoundOp) :
    ∀ gs : GameState, roundSafe gs → roundSafe (applyRoundOps gs l) := by
  induction l with
  | nil => intro gs h; exact h
  | cons op ops ih => intro gs h; exact ih (applyRoundOp gs op) (roundSafe_op gs op h)

/-- Positional elimination facts survive whole in-round sequences. -/
theorem elimAt_ops (l : List RoundOp) :
    ∀ (gs : GameState) (i : Nat), elimAt gs i → elimAt (applyRoundOps gs l) i := by
  induction l with
  | nil => intro gs i h; exact h
  | cons op ops ih => intro gs i h; exact ih (applyRoundOp gs op) i (elimAt_op gs op i h)

/-- A round start yields a `roundSafe` state whenever the team ids are
distinct (as the source's `Map` keys are). -/
theorem roundSafe_startNewRound (gs : GameState) (n : Int)
    (hids : (gs.teams.map Team.teamId).Nodup) :
    roundSafe (gs.startNewRound n) := by
  constructor
  · show ((gs.teams.map Team.roundReset).map Team.teamId).Nodup
    rw [ids_map_of_pres gs.teams Team.roundReset (fun t => rfl)]
    exact hids
  · intro t ht habs
    rcases List.mem_map.mp ht with ⟨u, _, rfl⟩
    simp [Team.roundReset] at habs

/-- In a `roundSafe` state, `canBeRevived` rejects every member of an
eliminated squad: the lookup finds that squad, and it has no players
alive. -/
theorem canBeRevived_false_of_elim (gs : GameState) (hsafe : roundSafe gs)
    (p : Player) (s : Team)
    (hfind : gs.getTeamById p.playerTeam = some s)
    (helim : s.teamEliminated = true) :
    p.canBeRevived gs.teams = false := by
  unfold Player.canBeRevived
  cases hpa : p.playerAlive
  · simp only [Bool.false_eq_true, if_false]
    rw [show gs.teams.find? (fun t => t.teamId == p.playerTeam) = some s from hfind]
    have hmem : s ∈ gs.teams := List.mem_of_find?_eq_some hfind
    have : s.teamPlayersAlive ≤ 0 := hsafe.2 s hmem helim
    have hdead : s.hasTeamPlayersAlive = false := by
      simp [Team.hasTeamPlayersAlive]
      omega
    simp [hdead]
  · simp

/-- C8: within a single round (operations are death/revive notifications,
sudden-death entry, round-outcome evaluation and `endRound`, with no
intervening `startNewRound`), a squad's eliminated flag never reverts to
false once set - in particular it flips false-to-true at most once - and no
revive accepted by `canBeRevived` can target a member of a squad whose
eliminated flag is already true, whatever its `playersAlive` bookkeeping. -/
theorem claim_C8 (gs0 : GameState) (n : Int)
    (hids : (gs0.teams.map Team.teamId).Nodup)
    (l1 l2 : List RoundOp) :
    (∀ i, elimAt (applyRoundOps (gs0.startNewRound n) l1) i →
        elimAt (applyRoundOps (gs0.startNewRound n) (l1 ++ l2)) i) ∧
    (∀ (p : Player) (s : Team),
        (applyRoundOps (gs0.startNewRound n) l1).getTeamById p.playerTeam = some s →
        s.teamEliminated = true →
        p.canBeRevived (applyRoundOps (gs0.startNewRound n) l1).teams = false) := by
  have hsafe : roundSafe (applyRoundOps (gs0.startNewRound n) l1) :=
    roundSafe_ops l1 (gs0.startNewRound n) (roundSafe_startNewRound gs0 n hids)
  constructor
  · intro i hi
    have hsplit : applyRoundOps (gs0.startNewRound n) (l1 ++ l2) =
        applyRoundOps (applyRoundOps (gs0.startNewRound n) l1) l2 :=
      List.foldl_append applyRoundOp (gs0.startNewRound n) l1 l2
    rw [hsplit]
    exact elimAt_ops l2 _ i hi
  · intro p s hfind helim
    exact canBeRevived_false_of_elim _ hsafe p s hfind helim

theorem claim_C8_witness :
    elimAt (applyRoundOps (latchState.startNewRound 0)
      ([RoundOp.death 0, RoundOp.death 0, RoundOp.death 0, RoundOp.death 0] ++
        [RoundOp.revive 0])) 0 ∧
    latchDeadPlayer.canBeRevived
      (applyRoundOps (latchState.startNewRound 0)
        [RoundOp.death 0, RoundOp.death 0, RoundOp.death 0, RoundOp.death 0]).teams = false := by
  have h := claim_C8 latchState 0 (by decide)
    [RoundOp.death 0, RoundOp.death 0, RoundOp.death 0, RoundOp.death 0] [RoundOp.revive 0]
  exact ⟨h.1 0 (by decide), h.2 latchDeadPlayer latchElimTeam (by decide) (by decide)⟩

/-! ### Timer lemmas (claim C9) -/

/-- After a round reset nothing is eliminated, so the alive filter keeps
every team. -/
theorem filter_alive_roundReset (l : List Team) :
    (l.map Team.roundReset).filter (fun s => !s.isTeamEliminated) = l.map Team.roundReset := by
  induction l with
  | nil => rfl
  | cons t ts ih =>
    simp [List.filter_cons, Team.roundReset, Team.isTeamEliminated, ih]

/-- `startNewRound` leaves as many alive teams as there are teams. -/
theorem getAliveTeams_startNewRound (gs : GameState) (n : Int) :
    (gs.startNewRound n).getAliveTeams.length = gs.teams.length := by
  show ((gs.teams.map Team.roundReset).filter (fun s => !s.isTeamEliminated)).length =
    gs.teams.length
  rw [filter_alive_roundReset, List.length_map]

/-- With no events and the timer already past the sudden-death entry tick,
the loop runs (unchanged) until the counter reaches `720`. -/
theorem tickLoopAux_noEvents_after_sd (gs : GameState)
    (hal : 1 < gs.getAliveTeams.length) :
    ∀ fuel t, ROUND_TIMER_SECS < t →
      ROUND_TIMER_SECS + SUDDEN_DEATH_TIMER_SECS < t + fuel →
      t ≤ ROUND_TIMER_SECS + SUDDEN_DEATH_TIMER_SECS →
      tickLoopAux noEvents fuel gs t = (gs, ROUND_TIMER_SECS + SUDDEN_DEATH_TIMER_SECS) := by
  have h600 : ROUND_TIMER_SECS = 600 := rfl
  have h120 : SUDDEN_DEATH_TIMER_SECS = 120 := rfl
  intro fuel
  induction fuel with
  | zero =>
    intro t h1 h2 h3
    rw [h600, h120] at h2 h3
    omega
  | succ fuel ih =>
    intro t h1 h2 h3
    by_cases hend : t = ROUND_TIMER_SECS + SUDDEN_DEATH_TIMER_SECS
    · subst hend
      simp [tickLoopAux]
    · have hlt : t < ROUND_TIMER_SECS + SUDDEN_DEATH_TIMER_SECS := by
        rw [h600, h120] at h3 hend ⊢
        omega
      have hne : (t == ROUND_TIMER_SECS) = false := by
        rw [h600] at h1 ⊢
        simp
        omega
      simp only [tickLoopAux, if_pos (And.intro hal hlt), hne, Bool.false_eq_true, if_false]
      exact ih (t + 1) (by omega) (by omega) (by omega)

/-- With no events, an alive state and the counter at most `600`, the loop
enters sudden death at tick `600` and runs to `720` with no other state
change. -/
theorem tickLoopAux_noEvents_main (gs : GameState)
    (hal : 1 < gs.getAliveTeams.length) :
    ∀ fuel t, ROUND_TIMER_SECS + SUDDEN_DEATH_TIMER_SECS < t + fuel →
      t ≤ ROUND_TIMER_SECS →
      tickLoopAux noEvents fuel gs t =
        (gs.roundEnterSuddenDeath, ROUND_TIMER_SECS + SUDDEN_DEATH_TIMER_SECS) := by
  have h600 : ROUND_TIMER_SECS = 600 := rfl
  have h120 : SUDDEN_DEATH_TIMER_SECS = 120 := rfl
  intro fuel
  induction fuel with
  | zero =>
    intro t h1 h2
    omega
  | succ fuel ih =>
    intro t h1 h2
    have hlt : t < ROUND_TIMER_SECS + SUDDEN_DEATH_TIMER_SECS := by
      rw [h600, h120]
      rw [h600] at h2
      omega
    by_cases ht6 : t = ROUND_TIMER_SECS
    · subst ht6
      have hsd : ((ROUND_TIMER_SECS == ROUND_TIMER_SECS) : Bool) = true := by simp
      simp only [tickLoopAux, if_pos (And.intro hal hlt), hsd, if_true]
      have hal' : 1 < (GameState.roundEnterSuddenDeath
          (applyEvents (noEvents ROUND_TIMER_SECS) gs)).getAliveTeams.length := hal
      exact tickLoopAux_noEvents_after_sd _ hal' fuel (ROUND_TIMER_SECS + 1)
        (by omega) (by rw [h600, h120]; rw [h600, h120] at h1; omega)
        (by rw [h600, h120]; omega)
    · have hne : (t == ROUND_TIMER_SECS) = false := by
        simp
        exact ht6
      simp only [tickLoopAux, if_pos (And.intro hal hlt), hne, Bool.false_eq_true, if_false]
      exact ih (t + 1) (by omega) (by rw [h600] at h2 ht6 ⊢; omega)

/-- With no events, running the loop body a number of iterations that stays
strictly before the sudden-death tick changes nothing but the counter. -/
theorem tickLoopAux_noEvents_burn (gs : GameState)
    (hal : 1 < gs.getAliveTeams.length) :
    ∀ fuel t, t + fuel ≤ ROUND_TIMER_SECS →
      tickLoopAux noEvents fuel gs t = (gs, t + fuel) := by
  have h600 : ROUND_TIMER_SECS = 600 := rfl
  have h120 : SUDDEN_DEATH_TIMER_SECS = 120 := rfl
  intro fuel
  induction fuel with
  | zero => intro t _; simp [tickLoopAux]
  | succ fuel ih =>
    intro t hle
    have hlt : t < ROUND_TIMER_SECS + SUDDEN_DEATH_TIMER_SECS := by
      rw [h600, h120]
      rw [h600] at hle
      omega
    have hne : (t == ROUND_TIMER_SECS) = false := by
      rw [h600] at hle ⊢
      simp
      omega
    simp only [tickLoopAux, if_pos (And.intro hal hlt), hne, Bool.false_eq_true, if_false]
    exact (ih (t + 1) (by omega)).trans (congrArg _ (by omega))

/-- With no events, running the loop with exactly enough fuel to pass the
sudden-death tick performs the transition and stops right after it. -/
theorem tickLoopAux_noEvents_enter (gs : GameState)
    (hal : 1 < gs.getAliveTeams.length) :
    ∀ fuel t, t + fuel = ROUND_TIMER_SECS + 1 → t ≤ ROUND_TIMER_SECS →
      tickLoopAux noEvents fuel gs t =
        (gs.roundEnterSuddenDeath, ROUND_TIMER_SECS + 1) := by
  have h600 : ROUND_TIMER_SECS = 600 := rfl
  have h120 : SUDDEN_DEATH_TIMER_SECS = 120 := rfl
  intro fuel
  induction fuel with
  | zero =>
    intro t h1 h2
    omega
  | succ fuel ih =>
    intro t h1 h2
    have hlt : t < ROUND_TIMER_SECS + SUDDEN_DEATH_TIMER_SECS := by
      rw [h600, h120]
      rw [h600] at h2
      omega
    by_cases ht6 : t = ROUND_TIMER_SECS
    · subst ht6
      have hf : fuel = 0 := by omega
      subst hf
      simp only [tickLoopAux]
      rw [if_pos (And.intro hal hlt)]
      rfl
    · have hne : (t == ROUND_TIMER_SECS) = false := by
        simp
        exact ht6
      simp only [tickLoopAux, if_pos (And.intro hal hlt), hne, Bool.false_eq_true, if_false]
      exact ih (t + 1) (by omega) (by rw [h600] at h2 ht6 ⊢; omega)

/-- C9: for a round with no deaths started on a full six-team state, the
first 600 loop iterations leave the state unchanged with the counter at 600
and sudden death not yet entered; the 601st iteration (the one whose
counter reads 600) enters sudden death - `suddenDeath` becomes true and
every player is pinged; the full loop then exits exactly at counter 720,
and the round is contested: all six teams are still alive, so
round-outcome evaluation changes nothing (no `roundsWon` increment). -/
theorem claim_C9 (gs : GameState) (h6 : gs.teams.length = 6) :
    (gs.startNewRound 0).roundInSuddenDeath = false ∧
    tickLoopAux noEvents 600 (gs.startNewRound 0) 0 = (gs.startNewRound 0, 600) ∧
    tickLoopAux noEvents 601 (gs.startNewRound 0) 0 =
      ((gs.startNewRound 0).roundEnterSuddenDeath, 601) ∧
    ((gs.startNewRound 0).roundEnterSuddenDeath).roundInSuddenDeath = true ∧
    (∀ p ∈ ((gs.startNewRound 0).roundEnterSuddenDeath).players, p.playerPinged = true) ∧
    tickLoop noEvents (gs.startNewRound 0) 0 =
      ((gs.startNewRound 0).roundEnterSuddenDeath, 720) ∧
    ((gs.startNewRound 0).roundEnterSuddenDeath).getAliveTeams.length = 6 ∧
    resolveRound ((gs.startNewRound 0).roundEnterSuddenDeath) =
      (gs.startNewRound 0).roundEnterSuddenDeath := by
  have hal : 1 < (gs.startNewRound 0).getAliveTeams.length := by
    rw [getAliveTeams_startNewRound, h6]
    omega
  have halive6 : ((gs.startNewRound 0).roundEnterSuddenDeath).getAliveTeams.length = 6 := by
    show ((gs.startNewRound 0).getAliveTeams).length = 6
    rw [getAliveTeams_startNewRound, h6]
  refine ⟨rfl, ?_, ?_, rfl, ?_, ?_, halive6, ?_⟩
  · exact tickLoopAux_noEvents_burn _ hal 600 0 (by decide)
  · exact tickLoopAux_noEvents_enter _ hal 601 0 (by decide) (by decide)
  · intro p hp
    rcases List.mem_map.mp hp with ⟨q, _, rfl⟩
    rfl
  · exact tickLoopAux_noEvents_main _ hal
      (ROUND_TIMER_SECS + SUDDEN_DEATH_TIMER_SECS + 1) 0 (by decide) (by decide)
  · unfold resolveRound
    rw [if_neg]
    simp [halive6]

theorem claim_C9_witness :
    gameSetup.teams.length = 6 ∧
    tickLoop noEvents (gameSetup.startNewRound 0) 0 =
      ((gameSetup.startNewRound 0).roundEnterSuddenDeath, 720) :=
  ⟨by decide, (claim_C9 gameSetup (by decide)).2.2.2.2.2.1⟩

/-! ### Match-loop lemmas (claim C7) -/

/-- Mapping a score-preserving team function keeps the score list. -/
theorem map_score_of_pres (f : Team → Team)
    (hf : ∀ t, (f t).teamScore = t.teamScore) :
    ∀ l : List Team, (l.map f).map Team.teamScore = l.map Team.teamScore := by
  intro l
  induction l with
  | nil => rfl
  | cons t ts ih => simp [hf, ih]

/-- Death and revive notifications never change any team's score. -/
theorem scores_applyEvent (e : GEvent) (gs : GameState) :
    ((applyEvent e gs).teams).map Team.teamScore = gs.teams.map Team.teamScore := by
  cases e with
  | death pid =>
    cases hfp : gs.players.find? (fun q => q.playerId == pid) with
    | none => simp only [applyEvent, notifyDeath, hfp]
    | some p =>
      cases hft : gs.getTeamById p.playerTeam with
      | none => simp only [applyEvent, notifyDeath, hfp, hft]
      | some s =>
        simp only [applyEvent, notifyDeath, hfp, hft]
        split
        · refine map_score_of_pres _ ?_ gs.teams
          intro t
          split
          · rfl
          · rfl
        · refine map_score_of_pres _ ?_ gs.teams
          intro t
          split
          · simp only [Team.handleTeamDeath, Team.handleTeamElimination]
            split <;> rfl
          · rfl
  | revive pid =>
    cases hfp : gs.players.find? (fun q => q.playerId == pid) with
    | none => simp only [applyEvent, notifyRevive, hfp]
    | some p =>
      simp only [applyEvent, notifyRevive, hfp]
      split
      · refine map_score_of_pres _ ?_ gs.teams
        intro t
        split
        · rfl
        · rfl
      · rfl

/-- Whole event batches keep the score list. -/
theorem scores_applyEvents (es : List GEvent) :
    ∀ gs : GameState,
      ((applyEvents es gs).teams).map Team.teamScore = gs.teams.map Team.teamScore := by
  induction es with
  | nil => intro gs; rfl
  | cons e es ih =>
    intro gs
    exact (ih (applyEvent e gs)).trans (scores_applyEvent e gs)

/-- The tick loop keeps the score list whatever events arrive. -/
theorem scores_tickLoopAux (evs : Nat → List GEvent) :
    ∀ (fuel : Nat) (gs : GameState) (t : Nat),
      (((tickLoopAux evs fuel gs t).1).teams).map Team.teamScore =
        gs.teams.map Team.teamScore := by
  intro fuel
  induction fuel with
  | zero => intro gs t; rfl
  | succ fuel ih =>
    intro gs t
    by_cases hg : gs.getAliveTeams.length > 1 ∧
        t < ROUND_TIMER_SECS + SUDDEN_DEATH_TIMER_SECS
    · simp only [tickLoopAux, if_pos hg]
      refine (ih _ _).trans ?_
      by_cases ht : (t == ROUND_TIMER_SECS) = true
      · simp only [ht, if_true]
        exact scores_applyEvents (evs t) gs
      · have ht' : (t == ROUND_TIMER_SECS) = false := by
          cases hcase : (t == ROUND_TIMER_SECS)
          · rfl
          · exact absurd hcase ht
        simp only [ht', Bool.false_eq_true, if_false]
        exact scores_applyEvents (evs t) gs
    · simp only [tickLoopAux, if_neg hg]

/-- `startNewRound` keeps the score list (round reset does not touch it). -/
theorem scores_startNewRound (gs : GameState) (n : Int) :
    ((gs.startNewRound n).teams).map Team.teamScore = gs.teams.map Team.teamScore :=
  map_score_of_pres Team.roundReset (fun _ => rfl) gs.teams

/-- A score bound transfers along an equal score list. -/
theorem scores_le_one_of_eq (l l' : List Team)
    (h : l'.map Team.teamScore = l.map Team.teamScore)
    (hall : ∀ t ∈ l, t.teamScore ≤ 1) : ∀ t ∈ l', t.teamScore ≤ 1 := by
  intro t ht
  have hmem : t.teamScore ∈ l'.map Team.teamScore := List.mem_map_of_mem _ ht
  rw [h] at hmem
  rcases List.mem_map.mp hmem with ⟨u, hu, he⟩
  rw [← he]
  exact hall u hu

/-- A team with score at most one has not won the match. -/
theorem hasWon_false_of_le_one (t : Team) (h : t.teamScore ≤ 1) :
    t.hasWonGame = false := by
  simp [Team.hasWonGame, ROUNDS_TO_WIN]
  omega

/-- No team of an all-scores-at-most-one list passes the winners filter. -/
theorem filter_hasWon_nil (l : List Team) (h : ∀ t ∈ l, t.teamScore ≤ 1) :
    l.filter (fun t => t.hasWonGame) = [] := by
  induction l with
  | nil => rfl
  | cons t ts ih =>
    rw [List.filter_cons,
      hasWon_false_of_le_one t (h t (by simp))]
    simp only [Bool.false_eq_true, if_false]
    exact ih (fun u hu => h u (by simp [hu]))

/-- Awarding the round win to the first alive team creates at most one
match winner when every score was at most one. -/
theorem count_winners_addWin (l : List Team) (h : ∀ t ∈ l, t.teamScore ≤ 1) :
    ((addWinToFirstAlive l).filter (fun t => t.hasWonGame)).length ≤ 1 := by
  induction l with
  | nil => simp [addWinToFirstAlive]
  | cons t ts ih =>
    unfold addWinToFirstAlive
    split
    · rw [List.filter_cons, filter_hasWon_nil ts (fun u hu => h u (by simp [hu]))]
      split <;> simp
    · rw [List.filter_cons, hasWon_false_of_le_one t (h t (by simp))]
      simp only [Bool.false_eq_true, if_false]
      exact ih (fun u hu => h u (by simp [hu]))

/-- One round adds at most one match winner when none existed. -/
theorem count_winners_playRound (sched : Nat → Nat → List GEvent) (n : Nat)
    (gs : GameState) (h : ∀ t ∈ gs.teams, t.teamScore ≤ 1) :
    ((playRound sched n gs).teams.filter (fun t => t.hasWonGame)).length ≤ 1 := by
  have hscores : (((tickLoop (sched n) (gs.startNewRound (Int.ofNat n)) 0).1).teams).map
      Team.teamScore = gs.teams.map Team.teamScore :=
    (scores_tickLoopAux (sched n) _ _ 0).trans (scores_startNewRound gs (Int.ofNat n))
  have hle : ∀ t ∈ ((tickLoop (sched n) (gs.startNewRound (Int.ofNat n)) 0).1).teams,
      t.teamScore ≤ 1 := scores_le_one_of_eq gs.teams _ hscores h
  show ((resolveRound (tickLoop (sched n) (gs.startNewRound (Int.ofNat n)) 0).1).teams.filter
    (fun t => t.hasWonGame)).length ≤ 1
  unfold resolveRound
  split
  · exact count_winners_addWin _ hle
  · rw [filter_hasWon_nil _ hle]
    simp

/-- `noWinnerB` bounds every score by one. -/
theorem le_one_of_noWinner (gs : GameState) (h : noWinnerB gs = true) :
    ∀ t ∈ gs.teams, t.teamScore ≤ 1 := by
  intro t ht
  have hall := List.all_eq_true.mp h t ht
  have hf : t.hasWonGame = false := by simpa using hall
  simp [Team.hasWonGame, ROUNDS_TO_WIN] at hf
  omega

/-- All-zero scores mean no winner. -/
theorem noWinner_of_zero (gs : GameState) (h0 : ∀ t ∈ gs.teams, t.teamScore = 0) :
    noWinnerB gs = true := by
  unfold noWinnerB
  rw [List.all_eq_true]
  intro t ht
  simp [Team.hasWonGame, ROUNDS_TO_WIN, h0 t ht]

/-- A failed `noWinnerB` check yields at least one winner in the filter. -/
theorem one_le_winners (gs : GameState) (h : noWinnerB gs = false) :
    1 ≤ (gs.teams.filter (fun t => t.hasWonGame)).length := by
  by_contra hlen
  push_neg at hlen
  have hnil : gs.teams.filter (fun t => t.hasWonGame) = [] := by
    cases hcase : gs.teams.filter (fun t => t.hasWonGame) with
    | nil => rfl
    | cons a l => rw [hcase] at hlen; simp at hlen
  have htrue : noWinnerB gs = true := by
    unfold noWinnerB
    rw [List.all_eq_true]
    intro t ht
    have hmem := List.filter_eq_nil_iff.mp hnil t ht
    have hf : t.hasWonGame = false := by
      cases hcase : t.hasWonGame
      · rfl
      · exact absurd hcase hmem
    simp [hf]
  rw [htrue] at h
  exact Bool.noConfusion h

/-- Unfolding `iterFrom` by one round from the left. -/
theorem iterFrom_succ_left (sched : Nat → Nat → List GEvent)
    (gs : GameState) (n k : Nat) :
    iterFrom sched gs n (k + 1) = iterFrom sched (playRound sched n gs) (n + 1) k := by
  rw [iterFrom]

/-- Unfolding `iterFrom` from the right: one more round is the round played
on the state the previous rounds produced. -/
theorem iterFrom_succ (sched : Nat → Nat → List GEvent) :
    ∀ (k n : Nat) (gs : GameState),
      iterFrom sched gs n (k + 1) =
        playRound sched (n + k) (iterFrom sched gs n k) := by
  intro k
  induction k with
  | zero =>
    intro n gs
    rw [iterFrom_succ_left]
    rw [show iterFrom sched (playRound sched n gs) (n + 1) 0 =
      playRound sched n gs from by rw [iterFrom]]
    rw [show iterFrom sched gs n 0 = gs from by rw [iterFrom], Nat.add_zero]
  | succ k ih =>
    intro n gs
    rw [iterFrom_succ_left, ih (n + 1) (playRound sched n gs),
      iterFrom_succ_left sched gs n k]
    have harith : n + 1 + k = n + (k + 1) := by omega
    rw [harith]

/-- Characterization of the outer round loop: it runs some number `r` of
rounds with `r` at most 7, producing exactly the unconditional round
iteration, no round among the first `r` starts from a state with a match
winner, and it exits either because a winner appeared or because the round
cap was reached. -/
theorem matchLoopAux_spec (sched : Nat → Nat → List GEvent) :
    ∀ (fuel n : Nat) (gs : GameState), n ≤ MAX_NUMBER_OF_ROUNDS →
      MAX_NUMBER_OF_ROUNDS < n + fuel →
      n ≤ (matchLoopAux sched fuel gs n).2 ∧
      (matchLoopAux sched fuel gs n).2 ≤ MAX_NUMBER_OF_ROUNDS ∧
      (matchLoopAux sched fuel gs n).1 =
        iterFrom sched gs n ((matchLoopAux sched fuel gs n).2 - n) ∧
      (∀ k, n ≤ k → k < (matchLoopAux sched fuel gs n).2 →
        noWinnerB (iterFrom sched gs n (k - n)) = true) ∧
      (noWinnerB (matchLoopAux sched fuel gs n).1 = false ∨
        (matchLoopAux sched fuel gs n).2 = MAX_NUMBER_OF_ROUNDS) := by
  intro fuel
  induction fuel with
  | zero =>
    intro n gs h1 h2
    omega
  | succ fuel ih =>
    intro n gs h1 h2
    by_cases hg : noWinnerB gs = true ∧ n < MAX_NUMBER_OF_ROUNDS
    · have heq : matchLoopAux sched (fuel + 1) gs n =
          matchLoopAux sched fuel (playRound sched n gs) (n + 1) := by
        simp only [matchLoopAux, if_pos hg]
      rw [heq]
      obtain ⟨i1, i2, i3, i4, i5⟩ :=
        ih (n + 1) (playRound sched n gs) (by omega) (by omega)
      refine ⟨by omega, i2, ?_, ?_, i5⟩
      · have hs : (matchLoopAux sched fuel (playRound sched n gs) (n + 1)).2 - n =
            ((matchLoopAux sched fuel (playRound sched n gs) (n + 1)).2 - (n + 1)) + 1 := by
          omega
        rw [hs, iterFrom_succ_left]
        exact i3
      · intro k hk1 hk2
        by_cases hkn : k = n
        · subst hkn
          rw [Nat.sub_self,
            show iterFrom sched gs k 0 = gs from by rw [iterFrom]]
          exact hg.1
        · have hs : k - n = (k - (n + 1)) + 1 := by omega
          rw [hs, iterFrom_succ_left]
          exact i4 k (by omega) hk2
    · have heq : matchLoopAux sched (fuel + 1) gs n = (gs, n) := by
        simp only [matchLoopAux, if_neg hg]
      rw [heq]
      refine ⟨Nat.le_refl n, h1, ?_, ?_, ?_⟩
      · rw [Nat.sub_self, show iterFrom sched gs n 0 = gs from by rw [iterFrom]]
      · intro k hk1 hk2
        omega
      · by_cases hw : noWinnerB gs = true
        · right
          have hnlt : ¬ n < MAX_NUMBER_OF_ROUNDS := fun hlt => hg ⟨hw, hlt⟩
          omega
        · left
          cases hcase : noWinnerB gs
          · rfl
          · exact absurd hcase hw

/-- C7: for every event schedule and every start state with all-zero
scores, the match loop ends with `endGame` applied (`gameStarted = false`,
`gameEnded = true`, round counter `-1`); it executes `r ≤ 7` rounds, the
final state being exactly the first `r` rounds' iteration; no executed
round started from a state that already had a match winner (so the game
ends immediately once a squad reaches two round wins and later rounds never
execute); the loop stops only with a winner present or after round 7; and
when a winner exists at the end it is unique (exactly one squad passes the
`hasWonGame` filter). -/
theorem claim_C7 (sched : Nat → Nat → List GEvent) (gs0 : GameState)
    (h0 : ∀ t ∈ gs0.teams, t.teamScore = 0) :
    (runMatch sched gs0).1.gameStarted = false ∧
    (runMatch sched gs0).1.gameEnded = true ∧
    (runMatch sched gs0).1.gameRound = -1 ∧
    (runMatch sched gs0).2 ≤ MAX_NUMBER_OF_ROUNDS ∧
    (matchLoop sched gs0 0).1 = roundsIter sched gs0 (runMatch sched gs0).2 ∧
    (∀ k, k < (runMatch sched gs0).2 → noWinnerB (roundsIter sched gs0 k) = true) ∧
    (noWinnerB (matchLoop sched gs0 0).1 = false ∨
      (runMatch sched gs0).2 = MAX_NUMBER_OF_ROUNDS) ∧
    (noWinnerB (runMatch sched gs0).1 = false →
      ((runMatch sched gs0).1.teams.filter (fun t => t.hasWonGame)).length = 1) := by
  obtain ⟨i1, i2, i3, i4, i5⟩ := matchLoopAux_spec sched (MAX_NUMBER_OF_ROUNDS + 1) 0 gs0
    (by omega) (by omega)
  have hfst : (matchLoop sched gs0 0).1 =
      roundsIter sched gs0 (runMatch sched gs0).2 := by
    have hzero : (matchLoopAux sched (MAX_NUMBER_OF_ROUNDS + 1) gs0 0).2 - 0 =
        (matchLoopAux sched (MAX_NUMBER_OF_ROUNDS + 1) gs0 0).2 := Nat.sub_zero _
    rw [show (matchLoop sched gs0 0).1 =
        (matchLoopAux sched (MAX_NUMBER_OF_ROUNDS + 1) gs0 0).1 from rfl, i3, hzero]
    rfl
  have hmin : ∀ k, k < (runMatch sched gs0).2 →
      noWinnerB (roundsIter sched gs0 k) = true := by
    intro k hk
    have := i4 k (Nat.zero_le k) hk
    rw [Nat.sub_zero] at this
    exact this
  refine ⟨rfl, rfl, rfl, i2, hfst, hmin, i5, ?_⟩
  intro hW
  have hW' : noWinnerB (roundsIter sched gs0 (runMatch sched gs0).2) = false := by
    rw [show noWinnerB (runMatch sched gs0).1 =
        noWinnerB (matchLoop sched gs0 0).1 from rfl, hfst] at hW
    exact hW
  have hteams : (runMatch sched gs0).1.teams =
      (roundsIter sched gs0 (runMatch sched gs0).2).teams := by
    rw [show (runMatch sched gs0).1.teams = (matchLoop sched gs0 0).1.teams from rfl, hfst]
  have hrpos : 1 ≤ (runMatch sched gs0).2 := by
    rcases Nat.eq_zero_or_pos (runMatch sched gs0).2 with hr0 | hpos
    · exfalso
      rw [hr0] at hW'
      rw [show roundsIter sched gs0 0 = gs0 from by
        show iterFrom sched gs0 0 0 = gs0
        rw [iterFrom]] at hW'
      rw [noWinner_of_zero gs0 h0] at hW'
      exact Bool.noConfusion hW'
    · exact hpos
  have hprev : ∀ t ∈ (roundsIter sched gs0 ((runMatch sched gs0).2 - 1)).teams,
      t.teamScore ≤ 1 := by
    have hnw := hmin ((runMatch sched gs0).2 - 1) (by omega)
    exact le_one_of_noWinner _ hnw
  have hiter : roundsIter sched gs0 (runMatch sched gs0).2 =
      playRound sched ((runMatch sched gs0).2 - 1)
        (roundsIter sched gs0 ((runMatch sched gs0).2 - 1)) := by
    have hre : (runMatch sched gs0).2 = ((runMatch sched gs0).2 - 1) + 1 := by omega
    show iterFrom sched gs0 0 (runMatch sched gs0).2 = _
    rw [hre, iterFrom_succ sched ((runMatch sched gs0).2 - 1) 0 gs0, Nat.zero_add]
    rfl
  have hle : ((roundsIter sched gs0 (runMatch sched gs0).2).teams.filter
      (fun t => t.hasWonGame)).length ≤ 1 := by
    rw [hiter]
    exact count_winners_playRound sched _ _ hprev
  have hge : 1 ≤ ((roundsIter sched gs0 (runMatch sched gs0).2).teams.filter
      (fun t => t.hasWonGame)).length := one_le_winners _ hW'
  rw [hteams]
  omega

theorem claim_C7_witness :
    (runMatch schedEmpty soloState).1.gameStarted = false ∧
    (runMatch schedEmpty soloState).1.gameEnded = true ∧
    (runMatch schedEmpty soloState).1.gameRound = -1 ∧
    noWinnerB (roundsIter schedEmpty soloState 1) = true ∧
    ((runMatch schedEmpty soloState).1.teams.filter
      (fun t => t.hasWonGame)).length = 1 := by
  have h := claim_C7 schedEmpty soloState (by
    intro t ht
    simp only [soloState, GameState.new, List.mem_singleton] at ht
    rw [ht]
    rfl)
  refine ⟨h.1, h.2.1, h.2.2.1, ?_, ?_⟩
  · exact h.2.2.2.2.2.1 1 (by decide)
  · exact h.2.2.2.2.2.2.2 (by decide)

/-- C10: `endGame` only touches `gameStarted`, `gameEnded` and `gameRound`;
the team map (hence every squad's score/revives/alive-count/eliminated
flag), the player map (hence every player's alive/pinged/name/squad), and
all round fields are unchanged. -/
theorem claim_C10 (gs : GameState) :
    (gs.endGame).teams = gs.teams ∧
    (gs.endGame).players = gs.players ∧
    (gs.endGame).roundStarted = gs.roundStarted ∧
    (gs.endGame).roundEnded = gs.roundEnded ∧
    (gs.endGame).roundTimerSecs = gs.roundTimerSecs ∧
    (gs.endGame).roundInSuddenDeath = gs.roundInSuddenDeath ∧
    (gs.endGame).gameStarted = false ∧
    (gs.endGame).gameEnded = true ∧
    (gs.endGame).gameRound = -1 :=
  ⟨rfl, rfl, rfl, rfl, rfl, rfl, rfl, rfl, rfl⟩

theorem claim_C10_witness :
    (gameSetup.endGame).teams = gameSetup.teams ∧
    (gameSetup.endGame).gameEnded = true :=
  ⟨(claim_C10 gameSetup).1, (claim_C10 gameSetup).2.2.2.2.2.2.2.1⟩

end SquadElim

